import Mathlib

/-!
Shallow embedding of the container-loading engine of
`container_loading_modern.py` (classes `Cargo`, `Container`, `PlacedCargo`,
`LoadingRule`, `LoadingAlgorithm`, `Container3DView`,
`ContainerLoadingApp.start_multi_container_loading`,
`ContainerLoadingApp._palletize_with_3d_algorithm`).

All geometric quantities and masses are modelled as exact rationals (`ℚ`);
the Python source uses floats but all constants involved (0.01, 0.1, 0.5,
0.7, 1.5, 2.0, 0.005, 0.02, 10, 30, 50, 100, ...) are exactly
representable, and every comparison in the source is an ordinary
arithmetic comparison, so the rational model reproduces the float model on
the concrete inputs used here.  Python `sorted` is a stable sort and is
modelled by `List.mergeSort` (which is stable); `sorted(..., reverse=True)`
with key `k` is modelled as `mergeSort` with the comparison
`k b ≤ k a`, which produces exactly the stable descending order.
Python sets of candidate positions are modelled as insertion-ordered
deduplicated lists; where a theorem could depend on the (unspecified)
iteration order of a Python set, this development only proves facts that
are independent of that order or evaluates concrete runs whose observable
claim (which items were placed, in which succession) does not depend on it.
-/

namespace ContainerLoading

/-- Cargo item (class `Cargo`): the fields the packing engine reads.
`pallet_contents` is kept outside this structure (see `PalletItem`) to
avoid a mutual recursion that Python sidesteps dynamically; no engine
function read here ever consumes `pallet_contents` of an input item. -/
structure Cargo where
  id : String
  name : String
  length : ℚ
  width : ℚ
  height : ℚ
  weight : ℚ
  quantity : Nat
  stackable : Bool
  allow_rotate : Bool
  bottom_only : Bool
  priority : Int
  is_pallet : Bool
  pallet_base_height : ℚ
deriving DecidableEq

/-- Cargo volume: `length * width * height` (property `Cargo.volume`). -/
def Cargo.volume (c : Cargo) : ℚ := c.length * c.width * c.height

/-- Container (class `Container`): interior dimensions in cm, payload in kg. -/
structure Container where
  name : String
  length : ℚ
  width : ℚ
  height : ℚ
  max_weight : ℚ
  container_type : String
deriving DecidableEq

/-- Container volume (property `Container.volume`). -/
def Container.volume (c : Container) : ℚ := c.length * c.width * c.height

/-- Committed placement (class `PlacedCargo`). -/
structure PlacedCargo where
  cargo : Cargo
  x : ℚ
  y : ℚ
  z : ℚ
  rotated : Bool
  step_number : Nat
  container_index : Nat
deriving DecidableEq

/-- Effective length under rotation (property `PlacedCargo.actual_length`). -/
def PlacedCargo.actual_length (p : PlacedCargo) : ℚ :=
  if p.rotated then p.cargo.width else p.cargo.length

/-- Effective width under rotation (property `PlacedCargo.actual_width`). -/
def PlacedCargo.actual_width (p : PlacedCargo) : ℚ :=
  if p.rotated then p.cargo.length else p.cargo.width

/-- Center x coordinate (property `PlacedCargo.center_x`). -/
def PlacedCargo.center_x (p : PlacedCargo) : ℚ := p.x + p.actual_length / 2

/-- Center y coordinate (property `PlacedCargo.center_y`). -/
def PlacedCargo.center_y (p : PlacedCargo) : ℚ := p.y + p.actual_width / 2

/-- Center z coordinate (property `PlacedCargo.center_z`). -/
def PlacedCargo.center_z (p : PlacedCargo) : ℚ := p.z + p.cargo.height / 2

/-- Loading rule (class `LoadingRule` and its five subclasses).  The engine
reads only `id`, `enabled`, `priority`, and - for the heavy-bottom rule -
`weight_threshold` (the Python code uses `getattr(rule, 'weight_threshold',
100)`, so the field is modelled on every rule with the getattr default). -/
structure LoadingRule where
  id : String
  enabled : Bool
  priority : Int
  weight_threshold : ℚ
deriving DecidableEq

/-- `RulePriorityFirst()`: id `priority_first`, priority 100. -/
def RulePriorityFirst : LoadingRule := ⟨"priority_first", true, 100, 100⟩

/-- `RuleHeavyBottom(100)`: id `heavy_bottom`, priority 80, threshold 100. -/
def RuleHeavyBottom : LoadingRule := ⟨"heavy_bottom", true, 80, 100⟩

/-- `RuleSimilarSizeStack(50)`: id `similar_stack`, priority 60. -/
def RuleSimilarSizeStack : LoadingRule := ⟨"similar_stack", true, 60, 100⟩

/-- `RuleSameSizeFirst()`: id `same_size`, priority 50. -/
def RuleSameSizeFirst : LoadingRule := ⟨"same_size", true, 50, 100⟩

/-- `RuleVolumeFirst()`: id `volume_first`, priority 40. -/
def RuleVolumeFirst : LoadingRule := ⟨"volume_first", true, 40, 100⟩

/-- `DEFAULT_RULES` in source order. -/
def DEFAULT_RULES : List LoadingRule :=
  [RulePriorityFirst, RuleHeavyBottom, RuleSimilarSizeStack, RuleSameSizeFirst, RuleVolumeFirst]

/-- Algorithm state (class `LoadingAlgorithm`): the container, the committed
placements, the rule set, and the step counter.  `grid_step` is the
constant 10 in the source and is inlined below. -/
structure LoadingAlgorithm where
  container : Container
  placed_cargos : List PlacedCargo
  rules : List LoadingRule
  step_counter : Nat
deriving DecidableEq

/-- Accumulated support area of a footprint `(x, y, length, width)` whose
bottom is at height `z`, over the given placements: the sum, over every
placement whose top face is within 0.1 of `z`, of the overlap of the two
footprints (`can_place`, support loop). -/
def supportSum (placed : List PlacedCargo) (x y z length width : ℚ) : ℚ :=
  (placed.map fun p =>
    if |p.z + p.cargo.height - z| < 0.1 then
      max 0 (min (x + length) (p.x + p.actual_length) - max x p.x) *
        max 0 (min (y + width) (p.y + p.actual_width) - max y p.y)
    else 0).sum

/-- Feasibility oracle (`LoadingAlgorithm.can_place`): rotation
admissibility, bottom-only, boundary checks, pairwise collision, and the
70% support check for stacked positions, in source order. -/
def can_place (alg : LoadingAlgorithm) (cargo : Cargo) (x y z : ℚ) (rotated : Bool) : Bool :=
  if rotated && !cargo.allow_rotate then false
  else
    let length := if rotated then cargo.width else cargo.length
    let width := if rotated then cargo.length else cargo.width
    let height := cargo.height
    if cargo.bottom_only && decide ((0.01 : ℚ) < z) then false
    else if x < -0.01 ∨ y < -0.01 ∨ z < -0.01 then false
    else if alg.container.length + 0.01 < x + length then false
    else if alg.container.width + 0.01 < y + width then false
    else if alg.container.height + 0.01 < z + height then false
    else if alg.placed_cargos.any (fun placed =>
        let pl := placed.actual_length
        let pw := placed.actual_width
        let ph := placed.cargo.height
        decide (x < placed.x + pl - 0.01) && decide (placed.x + 0.01 < x + length) &&
        decide (y < placed.y + pw - 0.01) && decide (placed.y + 0.01 < y + width) &&
        decide (z < placed.z + ph - 0.01) && decide (placed.z + 0.01 < z + height)) then false
    else if (0.01 : ℚ) < z then
      decide (length * width * 0.7 ≤ supportSum alg.placed_cargos x y z length width)
    else true

/-- Orientation preselector
(`LoadingAlgorithm.calculate_best_rotation_for_layer`): compares the
per-layer tiling counts of the two orientations computed from the container
dimensions alone, and prefers the rotated orientation exactly when its
count is strictly larger.  Python `int(a // b)` on positive floats is floor
division, modelled by `Rat.floor`. -/
def calculate_best_rotation_for_layer (alg : LoadingAlgorithm) (cargo : Cargo) : Bool :=
  if !cargo.allow_rotate then false
  else
    let cols_no_rotate := Rat.floor (alg.container.width / cargo.width)
    let rows_no_rotate := Rat.floor (alg.container.length / cargo.length)
    let count_no_rotate := cols_no_rotate * rows_no_rotate
    let cols_rotated := Rat.floor (alg.container.width / cargo.length)
    let rows_rotated := Rat.floor (alg.container.length / cargo.width)
    let count_rotated := cols_rotated * rows_rotated
    decide (count_no_rotate < count_rotated)

/-- Insertion-ordered deduplication, modelling iteration over a Python set
in a fixed (insertion) order. -/
def dedupPositions (l : List (ℚ × ℚ × ℚ)) : List (ℚ × ℚ × ℚ) :=
  l.foldl (fun acc p => if p ∈ acc then acc else acc ++ [p]) []

/-- Candidate generator (`LoadingAlgorithm.get_candidate_positions`):
origin, neighbor/top points of each placement, the conditional
edge-aligned points, and the edge-hugging points, deduplicated. -/
def get_candidate_positions (alg : LoadingAlgorithm) (cargo : Cargo) (rotated : Bool) :
    List (ℚ × ℚ × ℚ) :=
  let length := if rotated then cargo.width else cargo.length
  let width := if rotated then cargo.length else cargo.width
  let l1 := alg.placed_cargos.flatMap fun placed =>
    let pl := placed.actual_length
    let pw := placed.actual_width
    let ph := placed.cargo.height
    [(placed.x + pl, placed.y, placed.z), (placed.x, placed.y + pw, placed.z)]
    ++ (if placed.cargo.stackable && !cargo.bottom_only then
          [(placed.x, placed.y, placed.z + ph)] else [])
    ++ (if placed.x + pl + length ≤ alg.container.length then
          [(placed.x + pl, 0, placed.z), (placed.x + pl, 0, 0)] else [])
    ++ (if placed.y + pw + width ≤ alg.container.width then
          [(0, placed.y + pw, placed.z), (0, placed.y + pw, 0)] else [])
  let l2 := alg.placed_cargos.flatMap fun placed =>
    let pl := placed.actual_length
    let pw := placed.actual_width
    [(0, placed.y, placed.z), (0, placed.y + pw, placed.z),
     (placed.x, 0, placed.z), (placed.x + pl, 0, placed.z)]
  dedupPositions ((0, 0, 0) :: (l1 ++ l2))

/-- Placement scorer (`LoadingAlgorithm.calculate_placement_score`):
distance penalty, contact bonus against every placement, container-wall
contact bonus, and the narrow-sliver waste penalty.  Lower is better. -/
def calculate_placement_score (alg : LoadingAlgorithm) (cargo : Cargo) (x y z : ℚ)
    (rotated : Bool) : ℚ :=
  let length := if rotated then cargo.width else cargo.length
  let width := if rotated then cargo.length else cargo.width
  let distance_score := x * 1.0 + y * 1.5 + z * 2.0
  let contact0 := alg.placed_cargos.foldl
    (fun acc placed =>
      let pl := placed.actual_length
      let pw := placed.actual_width
      let ph := placed.cargo.height
      let acc1 := if |x - (placed.x + pl)| < 0.1 ∨ |placed.x - (x + length)| < 0.1 then
          acc - max 0 (min (y + width) (placed.y + pw) - max y placed.y) *
            max 0 (min (z + cargo.height) (placed.z + ph) - max z placed.z) * 0.01
        else acc
      let acc2 := if |y - (placed.y + pw)| < 0.1 ∨ |placed.y - (y + width)| < 0.1 then
          acc1 - max 0 (min (x + length) (placed.x + pl) - max x placed.x) *
            max 0 (min (z + cargo.height) (placed.z + ph) - max z placed.z) * 0.01
        else acc1
      if |z - (placed.z + ph)| < 0.1 then
          acc2 - max 0 (min (x + length) (placed.x + pl) - max x placed.x) *
            max 0 (min (y + width) (placed.y + pw) - max y placed.y) * 0.02
        else acc2) 0
  let contact1 := if x < 0.1 then contact0 - width * cargo.height * 0.005 else contact0
  let contact2 := if y < 0.1 then contact1 - length * cargo.height * 0.005 else contact1
  let contact3 := if z < 0.1 then contact2 - length * width * 0.01 else contact2
  let remaining_x := alg.container.length - (x + length)
  let remaining_y := alg.container.width - (y + width)
  let waste1 := if 0 < remaining_x ∧ remaining_x < 30 then remaining_x * 0.5 else 0
  let waste2 := if 0 < remaining_y ∧ remaining_y < 30 then remaining_y * 0.5 else 0
  distance_score + contact3 + (waste1 + waste2)

/-- One step of the best-candidate fold of `find_position`: keep the
incumbent unless the new score is strictly smaller (`if score <
best_score`). -/
def betterCandidate (best : Option (ℚ × (ℚ × ℚ × ℚ × Bool))) (score : ℚ)
    (cand : ℚ × ℚ × ℚ × Bool) : Option (ℚ × (ℚ × ℚ × ℚ × Bool)) :=
  match best with
  | none => some (score, cand)
  | some b => if score < b.1 then some (score, cand) else some b

/-- Fold of `find_position` over a list of candidate tuples: feasibility,
score, the `-100` optimal-orientation bonus, and strict improvement. -/
def scanCandidates (alg : LoadingAlgorithm) (cargo : Cargo) (optimal : Bool)
    (cands : List (ℚ × ℚ × ℚ × Bool)) (init : Option (ℚ × (ℚ × ℚ × ℚ × Bool))) :
    Option (ℚ × (ℚ × ℚ × ℚ × Bool)) :=
  cands.foldl
    (fun best cand =>
      let x := cand.1
      let y := cand.2.1
      let z := cand.2.2.1
      let rotated := cand.2.2.2
      if can_place alg cargo x y z rotated then
        let score0 := calculate_placement_score alg cargo x y z rotated
        let score := if rotated == optimal then score0 - 100 else score0
        betterCandidate best score cand
      else best)
    init

/-- Python `int()` truncation toward zero on a rational. -/
def int_trunc (q : ℚ) : Int := if q < 0 then -Rat.floor (-q) else Rat.floor q

/-- Python `range(0, stop, step)` for positive `step`. -/
def pyRange (stop step : Nat) : List Nat :=
  (List.range ((stop + step - 1) / step)).map (· * step)

/-- Ascending deduplicated list of z levels, modelling
`sorted(set(z_levels))` in the grid fallback of `find_position`. -/
def sortedLevels (l : List ℚ) : List ℚ :=
  (l.mergeSort fun a b => a ≤ b).foldl (fun acc q => if q ∈ acc then acc else acc ++ [q]) []

/-- Position search (`LoadingAlgorithm.find_position`): try the optimal
orientation first, scan the candidate positions, and fall back to a
10 cm grid over the known z levels when no candidate is feasible. -/
def find_position (alg : LoadingAlgorithm) (cargo : Cargo) : Option (ℚ × ℚ × ℚ × Bool) :=
  let optimal := calculate_best_rotation_for_layer alg cargo
  let rotations := if cargo.allow_rotate then [optimal, !optimal] else [false]
  let primary := rotations.flatMap fun r =>
    (get_candidate_positions alg cargo r).map fun p => (p.1, p.2.1, p.2.2, r)
  match scanCandidates alg cargo optimal primary none with
  | some best => some best.2
  | none =>
    let z_levels := sortedLevels (0 :: alg.placed_cargos.map fun p => p.z + p.cargo.height)
    let grid := z_levels.flatMap fun z =>
      (pyRange (int_trunc alg.container.length).toNat 10).flatMap fun xi =>
        (pyRange (int_trunc alg.container.width).toNat 10).flatMap fun yi =>
          rotations.map fun r => ((xi : ℚ), (yi : ℚ), z, r)
    match scanCandidates alg cargo optimal grid none with
    | some best => some best.2
    | none => none

/-- Commit (`LoadingAlgorithm.place_cargo`): on success, increment the step
counter and append the placement (container_index 0). -/
def place_cargo (alg : LoadingAlgorithm) (cargo : Cargo) : Bool × LoadingAlgorithm :=
  match find_position alg cargo with
  | some (x, y, z, rotated) =>
    (true, { alg with
      step_counter := alg.step_counter + 1,
      placed_cargos :=
        alg.placed_cargos ++ [⟨cargo, x, y, z, rotated, alg.step_counter + 1, 0⟩] })
  | none => (false, alg)

/-- Python `round` (banker's rounding, round half to even) on a rational. -/
def pyRound (q : ℚ) : Int :=
  let f := Rat.floor q
  let r := q - (f : ℚ)
  if r < 1/2 then f
  else if (1/2 : ℚ) < r then f + 1
  else if f % 2 = 0 then f else f + 1

/-- Enabled rules sorted stably by priority, highest first
(`sorted([r for r in self.rules if r.enabled], key=priority,
reverse=True)`). -/
def enabled_rules (rules : List LoadingRule) : List LoadingRule :=
  (rules.filter (·.enabled)).mergeSort fun a b => b.priority ≤ a.priority

/-- Sort-key contribution of one rule in `composite_key` of
`LoadingAlgorithm.apply_rules`.  The nested Python tuple contributed by the
same-size rule is flattened; since every cargo receives keys of the same
shape, lexicographic comparison of the flattened lists coincides with the
Python tuple comparison. -/
def rule_scores (rule : LoadingRule) (c : Cargo) : List ℚ :=
  if rule.id = "priority_first" then [-(c.priority : ℚ)]
  else if rule.id = "heavy_bottom" then
    [if rule.weight_threshold ≤ c.weight then 0 else 1, -c.weight]
  else if rule.id = "volume_first" then [-c.volume]
  else if rule.id = "similar_stack" then [-c.length]
  else if rule.id = "same_size" then
    [-((pyRound (c.length / 10) * 10 : Int) : ℚ),
     -((pyRound (c.width / 10) * 10 : Int) : ℚ),
     -((pyRound (c.height / 10) * 10 : Int) : ℚ)]
  else []

/-- Composite sort key (`composite_key` in `LoadingAlgorithm.apply_rules`). -/
def composite_key (rules : List LoadingRule) (c : Cargo) : List ℚ :=
  (enabled_rules rules).flatMap fun r => rule_scores r c

/-- Lexicographic comparison of two flattened key lists, as Python compares
key tuples. -/
def keyLE : List ℚ → List ℚ → Bool
  | [], _ => true
  | _ :: _, [] => false
  | a :: as, b :: bs => if a < b then true else if b < a then false else keyLE as bs

/-- Rule pipeline (`LoadingAlgorithm.apply_rules`): identity when no rule is
enabled, else the stable sort by the composite key. -/
def apply_rules (alg : LoadingAlgorithm) (cargos : List Cargo) : List Cargo :=
  if enabled_rules alg.rules = [] then cargos
  else cargos.mergeSort fun a b =>
    keyLE (composite_key alg.rules a) (composite_key alg.rules b)

/-- Center of gravity (`LoadingAlgorithm.calculate_center_of_gravity`):
(0,0,0) for an empty placement set or zero total weight, else the
mass-weighted mean of placement centers. -/
def calculate_center_of_gravity (alg : LoadingAlgorithm) : ℚ × ℚ × ℚ :=
  if alg.placed_cargos = [] then (0, 0, 0)
  else
    let total_weight := (alg.placed_cargos.map fun p => p.cargo.weight).sum
    if total_weight = 0 then (0, 0, 0)
    else
      ((alg.placed_cargos.map fun p => p.center_x * p.cargo.weight).sum / total_weight,
       (alg.placed_cargos.map fun p => p.center_y * p.cargo.weight).sum / total_weight,
       (alg.placed_cargos.map fun p => p.center_z * p.cargo.weight).sum / total_weight)

/-- Offset of the center of gravity from the container center
(`LoadingAlgorithm.calculate_center_offset`). -/
def calculate_center_offset (alg : LoadingAlgorithm) : ℚ × ℚ × ℚ :=
  let c := calculate_center_of_gravity alg
  (c.1 - alg.container.length / 2, c.2.1 - alg.container.width / 2,
   c.2.2 - alg.container.height / 2)

/-- Result record of `LoadingAlgorithm.get_statistics`. -/
structure Statistics where
  loaded_count : Nat
  total_volume : ℚ
  volume_utilization : ℚ
  total_weight : ℚ
  weight_utilization : ℚ
  center_of_gravity : ℚ × ℚ × ℚ
  center_offset : ℚ × ℚ × ℚ
  center_offset_pct : ℚ × ℚ
deriving DecidableEq

/-- Analytics (`LoadingAlgorithm.get_statistics`). -/
def get_statistics (alg : LoadingAlgorithm) : Statistics :=
  let total_cargo_volume := (alg.placed_cargos.map fun p => p.cargo.volume).sum
  let total_cargo_weight := (alg.placed_cargos.map fun p => p.cargo.weight).sum
  let off := calculate_center_offset alg
  { loaded_count := alg.placed_cargos.length
    total_volume := total_cargo_volume
    volume_utilization :=
      if 0 < alg.container.volume then total_cargo_volume / alg.container.volume * 100 else 0
    total_weight := total_cargo_weight
    weight_utilization :=
      if 0 < alg.container.max_weight then total_cargo_weight / alg.container.max_weight * 100
      else 0
    center_of_gravity := calculate_center_of_gravity alg
    center_offset := off
    center_offset_pct :=
      (if 0 < alg.container.length then off.1 / (alg.container.length / 2) * 100 else 0,
       if 0 < alg.container.width then off.2.1 / (alg.container.width / 2) * 100 else 0) }

/-- State of the manual-edit interface (class `Container3DView`): the
fields read by `check_collision`, `move_selected_cargo` and
`rotate_selected_cargo`. -/
structure Container3DView where
  container : Container
  placed_cargos : List PlacedCargo
  selected_cargo_index : Int
  collision_enabled : Bool
  snap_distance : ℚ
deriving DecidableEq

/-- Collision test of the manual-edit interface
(`Container3DView.check_collision`): the moving box (whose effective
dimensions are passed explicitly, as Python reads them from the `placed`
argument) against every other placement, with 0.5 tolerance; the entry at
`exclude_index` is skipped. -/
def check_collision (view : Container3DView) (length width height : ℚ)
    (new_x new_y new_z : ℚ) (exclude_index : Int) : Bool :=
  view.placed_cargos.enum.any fun pair =>
    if (pair.1 : Int) = exclude_index then false
    else
      let other := pair.2
      let ol := other.actual_length
      let ow := other.actual_width
      let oh := other.cargo.height
      decide (new_x < other.x + ol - 0.5) && decide (other.x + 0.5 < new_x + length) &&
      decide (new_y < other.y + ow - 0.5) && decide (other.y + 0.5 < new_y + width) &&
      decide (new_z < other.z + oh - 0.5) && decide (other.z + 0.5 < new_z + height)

/-- Python `max(0, min(hi, q))` clamp. -/
def clampQ (hi q : ℚ) : ℚ := max 0 (min hi q)

/-- Manual translation (`Container3DView.move_selected_cargo`): offset the
selected placement, clamp to the container, and commit unless collision
checking is enabled and the clamped position collides with another
placement.  Only bounds and pairwise collision are re-validated. -/
def move_selected_cargo (view : Container3DView) (dx dy dz : ℚ) : Bool × Container3DView :=
  if view.selected_cargo_index < 0 ∨
      (view.placed_cargos.length : Int) ≤ view.selected_cargo_index then (false, view)
  else
    let idx := view.selected_cargo_index.toNat
    match view.placed_cargos[idx]? with
    | none => (false, view)
    | some placed =>
      let length := placed.actual_length
      let width := placed.actual_width
      let height := placed.cargo.height
      let new_x := clampQ (view.container.length - length) (placed.x + dx)
      let new_y := clampQ (view.container.width - width) (placed.y + dy)
      let new_z := clampQ (view.container.height - height) (placed.z + dz)
      if view.collision_enabled &&
          check_collision view length width height new_x new_y new_z
            view.selected_cargo_index then (false, view)
      else
        (true, { view with placed_cargos :=
          view.placed_cargos.set idx { placed with x := new_x, y := new_y, z := new_z } })

/-- Neighborhood scan of `Container3DView.rotate_selected_cargo`: dx, dy
over -50..50 cm in 10 cm steps (dx-major), each candidate clamped to the
container; the first clamped position free of collisions is returned. -/
def rotate_scan (view1 : Container3DView) (sel : Int)
    (new_length new_width height z hx hy nx ny : ℚ) : Option (ℚ × ℚ) :=
  let offsets : List ℚ := (List.range 11).map fun i => (-50 : ℚ) + 10 * i
  let pairs := offsets.flatMap fun dx => offsets.map fun dy => (dx, dy)
  (pairs.find? fun pr =>
      !check_collision view1 new_length new_width height (clampQ hx (nx + pr.1))
        (clampQ hy (ny + pr.2)) z sel).map
    fun pr => (clampQ hx (nx + pr.1), clampQ hy (ny + pr.2))

/-- Body of `Container3DView.rotate_selected_cargo` after its index and
rotatability guards: flip the rotated flag (an in-place mutation in Python,
modelled by `List.set`), recenter, clamp, and on collision run
`rotate_scan` for the first collision-free position; when the scan fails,
the flag is flipped back and the call reports failure. -/
def rotate_attempt (view : Container3DView) (idx : Nat) (placed : PlacedCargo) :
    Bool × Container3DView :=
  let cargo := placed.cargo
  let original_rotated := placed.rotated
  let flipped : PlacedCargo := { placed with rotated := !placed.rotated }
  let view1 : Container3DView :=
    { view with placed_cargos := view.placed_cargos.set idx flipped }
  let new_length := flipped.actual_length
  let new_width := flipped.actual_width
  -- center_x = original_x + (cargo.length if not original_rotated else cargo.width)/2,
  -- which is the pre-flip effective length, i.e. placed.actual_length; same for y
  let center_x := placed.x + placed.actual_length / 2
  let center_y := placed.y + placed.actual_width / 2
  let new_x := clampQ (view.container.length - new_length) (center_x - new_length / 2)
  let new_y := clampQ (view.container.width - new_width) (center_y - new_width / 2)
  if view.collision_enabled &&
      check_collision view1 new_length new_width cargo.height new_x new_y placed.z
        view.selected_cargo_index then
    match rotate_scan view1 view.selected_cargo_index new_length new_width cargo.height
        placed.z (view.container.length - new_length) (view.container.width - new_width)
        new_x new_y with
    | some txy =>
      (true, { view1 with placed_cargos :=
        view1.placed_cargos.set idx { flipped with x := txy.1, y := txy.2 } })
    | none =>
      (false, { view1 with placed_cargos :=
        view1.placed_cargos.set idx { flipped with rotated := original_rotated } })
  else
    (true, { view1 with placed_cargos :=
      view1.placed_cargos.set idx { flipped with x := new_x, y := new_y } })

/-- Manual rotation (`Container3DView.rotate_selected_cargo`): the index
and rotatability guards around `rotate_attempt`. -/
def rotate_selected_cargo (view : Container3DView) : Bool × Container3DView :=
  if view.selected_cargo_index < 0 ∨
      (view.placed_cargos.length : Int) ≤ view.selected_cargo_index then (false, view)
  else
    let idx := view.selected_cargo_index.toNat
    match view.placed_cargos[idx]? with
    | none => (false, view)
    | some placed =>
      if !placed.cargo.allow_rotate then (false, view)
      else rotate_attempt view idx placed

/-- Per-container loading result (class `ContainerLoadingResult`). -/
structure ContainerLoadingResult where
  container : Container
  container_index : Nat
  placed_cargos : List PlacedCargo
deriving DecidableEq

/-- Quantity expansion of `start_multi_container_loading`: each cargo is
copied `quantity` times with quantity 1 and id `{id}_{i}`. -/
def expand_quantities (cargos : List Cargo) : List Cargo :=
  cargos.flatMap fun c =>
    (List.range c.quantity).map fun i =>
      { c with quantity := 1, id := c.id ++ "_" ++ toString i }

/-- Set `container_index` of the last element, modelling the Python
mutation `placed.container_index = container_idx` applied to the placement
just appended by `place_cargo`. -/
def setLastIndex (k : Nat) : List PlacedCargo → List PlacedCargo
  | [] => []
  | [p] => [{ p with container_index := k }]
  | p :: q :: rest => p :: setLastIndex k (q :: rest)

/-- Inner loop of `start_multi_container_loading` for one container: try
each remaining cargo in order with `place_cargo` on the shared algorithm
state; collect the failures.  Returns the final algorithm state (whose
`placed_cargos` equals the `loaded_in_this` list of the source, since that
list aliases exactly the placements committed by this loop, in order) and
the still-remaining cargos. -/
def pack_remaining (k : Nat) : LoadingAlgorithm → List Cargo → LoadingAlgorithm × List Cargo
  | alg, [] => (alg, [])
  | alg, c :: rest =>
    let res := place_cargo alg c
    if res.1 then
      pack_remaining k { res.2 with placed_cargos := setLastIndex k res.2.placed_cargos } rest
    else
      let next := pack_remaining k alg rest
      (next.1, c :: next.2)

/-- Packing of one container in `start_multi_container_loading`: a fresh
`LoadingAlgorithm(self.container, rules=rules)` (empty placement list, step
counter 0), then the try-each-cargo loop. -/
def pack_one_container (container : Container) (rules : List LoadingRule) (k : Nat)
    (remaining : List Cargo) : List PlacedCargo × List Cargo :=
  let res := pack_remaining k ⟨container, [], rules, 0⟩ remaining
  (res.1.placed_cargos, res.2)

/-- Container loop of `start_multi_container_loading`: for each container
index, stop as soon as the remainder is empty, else pack one fresh
container and append its result (kept even when it placed nothing). -/
def multi_loop (container : Container) (rules : List LoadingRule) :
    Nat → Nat → List Cargo → List ContainerLoadingResult × List Cargo
  | 0, _, remaining => ([], remaining)
  | n + 1, k, remaining =>
    if remaining = [] then ([], remaining)
    else
      let res := pack_one_container container rules k remaining
      let next := multi_loop container rules n (k + 1) res.2
      (⟨container, k, res.1⟩ :: next.1, next.2)

/-- Multi-container orchestrator
(`ContainerLoadingApp.start_multi_container_loading`): quantity expansion
followed by the container loop.  The rule list is stored in each
per-container algorithm instance but `apply_rules` is never invoked on
this path. -/
def start_multi_container_loading (container : Container) (rules : List LoadingRule)
    (container_count : Nat) (cargos : List Cargo) :
    List ContainerLoadingResult × List Cargo :=
  multi_loop container rules container_count 0 (expand_quantities cargos)

/-- Modelled from the claim for comparison: the container loop as the spec
describes it, with the remainder reordered by the rule pipeline before each
container is packed.  This definition follows the claim wording, not the
source; it exists to be compared against `multi_loop`. -/
def multi_loop_spec (container : Container) (rules : List LoadingRule) :
    Nat → Nat → List Cargo → List ContainerLoadingResult × List Cargo
  | 0, _, remaining => ([], remaining)
  | n + 1, k, remaining =>
    if remaining = [] then ([], remaining)
    else
      let sorted := apply_rules ⟨container, [], rules, 0⟩ remaining
      let res := pack_one_container container rules k sorted
      let next := multi_loop_spec container rules n (k + 1) res.2
      (⟨container, k, res.1⟩ :: next.1, next.2)

/-- Modelled from the claim for comparison: the orchestrator with the
per-container reordering of `multi_loop_spec`. -/
def start_multi_container_loading_spec (container : Container) (rules : List LoadingRule)
    (container_count : Nat) (cargos : List Cargo) :
    List ContainerLoadingResult × List Cargo :=
  multi_loop_spec container rules container_count 0 (expand_quantities cargos)

/-- Content entry of a pallet (class `PalletContent`): a source cargo with
its position on the pallet deck and its rotation. -/
structure PalletContent where
  cargo : Cargo
  x : ℚ
  y : ℚ
  z : ℚ
  rotated : Bool
  quantity : Nat
deriving DecidableEq

/-- A pallet produced by `_palletize_with_3d_algorithm`: the synthetic
`Cargo` together with its `pallet_contents` field (stored alongside rather
than inside `Cargo` to avoid mutual recursion; see `Cargo`). -/
structure PalletItem where
  cargo : Cargo
  pallet_contents : List PalletContent
deriving DecidableEq

/-- Geometry tuple `(x, y, z, length, width, height)` appended to
`placed_items` in `_palletize_with_3d_algorithm`. -/
structure PalletPlacedItem where
  x : ℚ
  y : ℚ
  z : ℚ
  l : ℚ
  w : ℚ
  h : ℚ
deriving DecidableEq

/-- The `placed_items` tuple recorded for a committed pallet content: same
position, and the effective dimensions of the chosen orientation. -/
def PalletContent.toPlacedItem (c : PalletContent) : PalletPlacedItem :=
  ⟨c.x, c.y, c.z,
   (if c.rotated then c.cargo.width else c.cargo.length),
   (if c.rotated then c.cargo.length else c.cargo.width),
   c.cargo.height⟩

/-- Type of the position finder `_find_position_on_pallet`.  The claims
settled here hold for every finder, so the search procedure is kept as a
parameter (quantified universally in the theorems) rather than embedded;
everything the palletization bookkeeping does with its result is modelled
exactly. -/
def PalletFinder : Type :=
  List PalletPlacedItem → ℚ → ℚ → ℚ → ℚ → ℚ → ℚ → Option (ℚ × ℚ × ℚ)

/-- One orientation attempt of the palletization scan: rotation
admissibility, pallet-dimension check, weight-cap check, then the position
finder, in source order. -/
def pallet_try_orientation (finder : PalletFinder) (placed_items : List PalletPlacedItem)
    (pallet_l pallet_w content_max_h max_wt current_weight : ℚ) (cargo : Cargo)
    (rotated : Bool) : Option (ℚ × ℚ × ℚ) :=
  if rotated && !cargo.allow_rotate then none
  else
    let c_l := if rotated then cargo.width else cargo.length
    let c_w := if rotated then cargo.length else cargo.width
    let c_h := cargo.height
    if pallet_l < c_l ∨ pallet_w < c_w ∨ content_max_h < c_h then none
    else if max_wt < current_weight + cargo.weight then none
    else finder placed_items c_l c_w c_h pallet_l pallet_w content_max_h

/-- The `for rotated in [False, True]` loop of the palletization scan:
un-rotated first, rotated second, first success wins. -/
def pallet_try_place (finder : PalletFinder) (placed_items : List PalletPlacedItem)
    (pallet_l pallet_w content_max_h max_wt current_weight : ℚ) (cargo : Cargo) :
    Option (ℚ × ℚ × ℚ × Bool) :=
  match pallet_try_orientation finder placed_items pallet_l pallet_w content_max_h max_wt
      current_weight cargo false with
  | some p => some (p.1, p.2.1, p.2.2, false)
  | none =>
    match pallet_try_orientation finder placed_items pallet_l pallet_w content_max_h max_wt
        current_weight cargo true with
    | some p => some (p.1, p.2.1, p.2.2, true)
    | none => none

/-- State threaded through one pass over the remaining cargos in
`_palletize_with_3d_algorithm`: contents, accumulated weight, placed
geometry tuples, the cargos that did not fit this pass, and whether the
pass made progress. -/
structure PalletPassState where
  contents : List PalletContent
  weight : ℚ
  items : List PalletPlacedItem
  still : List Cargo
  progress : Bool
deriving DecidableEq

/-- One pass of the `for cargo in remaining` loop: each cargo is tried
against the state updated by its predecessors; failures accumulate into
`still`. -/
def pallet_pass (finder : PalletFinder) (pallet_l pallet_w content_max_h max_wt : ℚ) :
    List Cargo → List PalletContent → ℚ → List PalletPlacedItem → PalletPassState
  | [], contents, w, items => ⟨contents, w, items, [], false⟩
  | c :: rest, contents, w, items =>
    match pallet_try_place finder items pallet_l pallet_w content_max_h max_wt w c with
    | some (x, y, z, r) =>
      let content : PalletContent := ⟨c, x, y, z, r, 1⟩
      let s := pallet_pass finder pallet_l pallet_w content_max_h max_wt rest
        (contents ++ [content]) (w + c.weight) (items ++ [content.toPlacedItem])
      ⟨s.contents, s.weight, s.items, s.still, true⟩
    | none =>
      let s := pallet_pass finder pallet_l pallet_w content_max_h max_wt rest contents w items
      ⟨s.contents, s.weight, s.items, c :: s.still, s.progress⟩

/-- The `while made_progress` loop: repeat passes until one places
nothing.  Each productive pass strictly shrinks the remaining list, so fuel
`remaining.length + 1` suffices; the theorems hold for every fuel. -/
def pallet_inner (finder : PalletFinder) (pallet_l pallet_w content_max_h max_wt : ℚ) :
    Nat → List PalletContent → ℚ → List PalletPlacedItem → List Cargo →
    List PalletContent × ℚ × List PalletPlacedItem × List Cargo
  | 0, contents, w, items, rem => (contents, w, items, rem)
  | fuel + 1, contents, w, items, rem =>
    let s := pallet_pass finder pallet_l pallet_w content_max_h max_wt rem contents w items
    if s.progress then
      pallet_inner finder pallet_l pallet_w content_max_h max_wt fuel s.contents s.weight
        s.items s.still
    else (s.contents, s.weight, s.items, s.still)

/-- Declared height of a pallet: `actual_height` starts at the deck height
and is raised to `base_h + (z + h)` for every placed geometry tuple. -/
def pallet_height (base_h : ℚ) (items : List PalletPlacedItem) : ℚ :=
  items.foldl (fun acc t => max acc (base_h + (t.z + t.h))) base_h

/-- The synthetic pallet cargo built at the end of one outer iteration of
`_palletize_with_3d_algorithm`. -/
def mk_pallet_cargo (count : Nat) (pallet_l pallet_w base_h weight : ℚ)
    (contents : List PalletContent) (items : List PalletPlacedItem) : PalletItem :=
  ⟨{ id := ""
     name := "托盘" ++ toString count
     length := pallet_l
     width := pallet_w
     height := pallet_height base_h items
     weight := weight
     quantity := 1
     stackable := true
     allow_rotate := true
     bottom_only := false
     priority := 0
     is_pallet := true
     pallet_base_height := base_h }, contents⟩

/-- The `while remaining` loop of `_palletize_with_3d_algorithm`: run the
inner loop on a fresh pallet state; if it placed nothing, stop (the source
warns and breaks when cargos remain, and falls out of the loop otherwise);
else emit the pallet and continue on the remainder. -/
def palletize_loop (finder : PalletFinder) (pallet_l pallet_w base_h content_max_h max_wt : ℚ) :
    Nat → Nat → List Cargo → List PalletItem
  | 0, _, _ => []
  | fuel + 1, count, remaining =>
    if remaining = [] then []
    else
      let r := pallet_inner finder pallet_l pallet_w content_max_h max_wt
        (remaining.length + 1) [] 0 [] remaining
      if r.1 = [] then []
      else
        mk_pallet_cargo (count + 1) pallet_l pallet_w base_h r.2.1 r.1 r.2.2.1 ::
          palletize_loop finder pallet_l pallet_w base_h content_max_h max_wt fuel (count + 1)
            r.2.2.2

/-- Palletization engine (`ContainerLoadingApp._palletize_with_3d_algorithm`):
sort the selection by volume descending (stable), then run the outer pallet
loop.  Each productive outer iteration strictly shrinks the remaining list,
so fuel `cargos.length + 1` suffices; the theorems hold for every fuel. -/
def palletize_with_3d_algorithm (finder : PalletFinder) (cargos : List Cargo)
    (pallet_l pallet_w base_h content_max_h max_wt : ℚ) : List PalletItem :=
  let remaining := cargos.mergeSort fun a b => b.volume ≤ a.volume
  palletize_loop finder pallet_l pallet_w base_h content_max_h max_wt
    (remaining.length + 1) 0 remaining

/-- Top face height of a pallet content. -/
def PalletContent.top_z (c : PalletContent) : ℚ := c.z + c.cargo.height

/-- Support invariant on a placement list: every placement whose bottom is
strictly above the 0.01 floor tolerance is supported by the other
placements whose top face is within 0.1 of its bottom, with total overlap
at least 0.7 of its footprint (§3/§8 of the spec, matching the check of
`can_place` for the placement being committed). -/
def support_ok (l : List PlacedCargo) : Prop :=
  ∀ i, (h : i < l.length) →
    0.01 < l[i].z →
    l[i].actual_length * l[i].actual_width * 0.7 ≤
      supportSum (l.eraseIdx i) l[i].x l[i].y l[i].z l[i].actual_length l[i].actual_width

/-- The support invariant is decidable, so it can be evaluated on concrete
states. -/
instance support_ok_decidable (l : List PlacedCargo) : Decidable (support_ok l) := by
  unfold support_ok
  infer_instance

/-- Helper for concrete test items: a plain box with the given name,
dimensions, weight, rotation permission and priority. -/
def mkBox (nm : String) (l w h wt : ℚ) (rot : Bool) (pr : Int) : Cargo :=
  ⟨nm, nm, l, w, h, wt, 1, true, rot, false, pr, false, 15⟩

/-- A 100 × 50 × 50 container with 1000 kg payload. -/
def exContainer : Container := ⟨"c100", 100, 50, 50, 1000, "container"⟩

/-- Concrete manual-edit state for the support counterexample: a
20 × 20 × 10 base at the origin carrying a 10 × 10 × 10 box on top, the top
box selected, collision checking enabled. -/
def moveViewEx : Container3DView :=
  { container := exContainer
    placed_cargos :=
      [⟨mkBox "base" 20 20 10 5 false 0, 0, 0, 0, false, 1, 0⟩,
       ⟨mkBox "top" 10 10 10 5 false 0, 0, 0, 10, false, 2, 0⟩]
    selected_cargo_index := 1
    collision_enabled := true
    snap_distance := 5 }

/-- Concrete algorithm state for the support-preservation witness: the
20 × 20 × 10 base already committed. -/
def supportAlgEx : LoadingAlgorithm :=
  ⟨exContainer, [⟨mkBox "base" 20 20 10 5 false 0, 0, 0, 0, false, 1, 0⟩], DEFAULT_RULES, 1⟩

/-- The 10 × 10 × 10 box stacked in the support-preservation witness. -/
def topBoxEx : Cargo := mkBox "top" 10 10 10 5 false 0

/-- Concrete rotation state for the revert witness: a 30 × 30 × 10
container fully tiled by a rotatable 30 × 10 plank and six 10 × 10 boxes;
rotating the plank collides everywhere the ±50 cm scan reaches. -/
def rotViewEx : Container3DView :=
  { container := ⟨"c30", 30, 30, 10, 1000, "container"⟩
    placed_cargos :=
      [⟨mkBox "plank" 30 10 10 5 true 0, 0, 0, 0, false, 1, 0⟩,
       ⟨mkBox "b1" 10 10 10 5 false 0, 0, 10, 0, false, 2, 0⟩,
       ⟨mkBox "b2" 10 10 10 5 false 0, 10, 10, 0, false, 3, 0⟩,
       ⟨mkBox "b3" 10 10 10 5 false 0, 20, 10, 0, false, 4, 0⟩,
       ⟨mkBox "b4" 10 10 10 5 false 0, 0, 20, 0, false, 5, 0⟩,
       ⟨mkBox "b5" 10 10 10 5 false 0, 10, 20, 0, false, 6, 0⟩,
       ⟨mkBox "b6" 10 10 10 5 false 0, 20, 20, 0, false, 7, 0⟩]
    selected_cargo_index := 0
    collision_enabled := true
    snap_distance := 5 }

/-- Low-priority small box used in the orchestrator examples. -/
def cargoA : Cargo := mkBox "A" 10 10 10 1 false 0

/-- High-priority larger box used in the orchestrator examples: the default
rule pipeline orders it before `cargoA`. -/
def cargoB : Cargo := mkBox "B" 20 20 20 1 false 5

/-- Algorithm state for the preselector witness: an empty 100 × 60 × 50
container. -/
def rotAlgEx : LoadingAlgorithm := ⟨⟨"c60", 100, 60, 50, 1000, "container"⟩, [], [], 0⟩

/-- A 20 × 50 × 20 box: rotated it tiles 6 per layer of `rotAlgEx`,
un-rotated only 5, so the preselector must choose the rotated
orientation. -/
def cargoRot : Cargo := mkBox "R" 20 50 20 5 true 0

/-- Algorithm state for the preselector tie witness: an empty 50 × 50 × 50
container. -/
def tieAlgEx : LoadingAlgorithm := ⟨⟨"c50", 50, 50, 50, 1000, "container"⟩, [], [], 0⟩

/-- A 50 × 50 × 20 box filling a layer of `tieAlgEx` exactly either way:
both per-layer counts are 1. -/
def cargoTie : Cargo := mkBox "T" 50 50 20 5 true 0

/-- Scorer example cargo: 30 × 20 × 20. -/
def cargoScore : Cargo := mkBox "S" 30 20 20 5 false 0

/-- Empty algorithm on the 100 × 50 × 50 container. -/
def emptyAlgEx : LoadingAlgorithm := ⟨exContainer, [], DEFAULT_RULES, 0⟩

/-- Algorithm state with one placed cargo of weight zero, exercising the
zero-total-weight guard of the center-of-gravity computation. -/
def zeroWeightAlgEx : LoadingAlgorithm :=
  ⟨exContainer, [⟨mkBox "Z" 10 10 10 0 false 0, 30, 20, 0, false, 1, 0⟩], DEFAULT_RULES, 1⟩

/-- Wall-contact bonus as the claim states it, modelled from the claim
wording for comparison with `calculate_placement_score`: container
dimensions in all three products. -/
def claim_wall_bonus (alg : LoadingAlgorithm) (x y z : ℚ) : ℚ :=
  (if x < 0.1 then -(0.005 * (alg.container.width * alg.container.height)) else 0) +
  (if y < 0.1 then -(0.005 * (alg.container.length * alg.container.height)) else 0) +
  (if z < 0.1 then -(0.01 * (alg.container.length * alg.container.width)) else 0)

/-- Nonnegativity of a position finder: every returned position sits on or
above the pallet deck. -/
def FinderNonneg (finder : PalletFinder) : Prop :=
  ∀ items a b c d e f x y z, finder items a b c d e f = some (x, y, z) → 0 ≤ z

/-- A trivial concrete position finder used to instantiate the
palletization theorem in its witness: always place at the deck origin. -/
def constFinder : PalletFinder := fun _ _ _ _ _ _ _ => some (0, 0, 0)

/-- A 10 × 10 × 10, 5 kg box for the palletization witness. -/
def palletCargoEx : Cargo := mkBox "P" 10 10 10 5 false 0

/-- The pallet that `palletize_with_3d_algorithm` produces from
`palletCargoEx` under `constFinder` with a 120 × 100 pallet, 15 cm deck,
150 cm content cap and 1000 kg cap. -/
def palletizeExPallet : PalletItem :=
  ⟨{ id := ""
     name := "托盘1"
     length := 120
     width := 100
     height := 25
     weight := 5
     quantity := 1
     stackable := true
     allow_rotate := true
     bottom_only := false
     priority := 0
     is_pallet := true
     pallet_base_height := 15 }, [⟨palletCargoEx, 0, 0, 0, false, 1⟩]⟩

section ConcreteEvaluation

attribute [local semireducible] Rat.add Rat.mul Rat.sub Rat.inv Rat.ofScientific

/-- Claim C10: the center-of-gravity computation is total on degenerate
masses: with an empty placement set or zero total weight it returns exactly
(0, 0, 0) without reaching the mass-weighted division. -/
theorem cog_degenerate_zero (alg : LoadingAlgorithm)
    (h : alg.placed_cargos = [] ∨ (alg.placed_cargos.map fun p => p.cargo.weight).sum = 0) :
    calculate_center_of_gravity alg = (0, 0, 0) := by
  rcases h with h | h
  · simp [calculate_center_of_gravity, h]
  · by_cases hp : alg.placed_cargos = []
    · simp [calculate_center_of_gravity, hp]
    · simp [calculate_center_of_gravity, hp, h]

/-- Witness for C10 at a nonempty placement set of total weight zero. -/
theorem cog_degenerate_zero_witness :
    calculate_center_of_gravity zeroWeightAlgEx = (0, 0, 0) :=
  cog_degenerate_zero zeroWeightAlgEx (Or.inr (by decide))

/-- Counterexample to claim C9: on an empty placement set in a
100 × 50 × 50 container the analytics field `center_offset` is
(-50, -25, -25) - the center of gravity (0,0,0) minus the container
center - not the zero vector the claim states. -/
theorem statistics_empty_offset_cex :
    (get_statistics emptyAlgEx).center_offset = (-50, -25, -25) ∧
      ((-50, -25, -25) : ℚ × ℚ × ℚ) ≠ (0, 0, 0) :=
  ⟨by decide, by decide⟩

/-- Claim C9 (corrected): analytics on an empty placement set succeeds and
returns zero for the loaded count, volumes, weights, utilizations and the
center of gravity, but its center-of-gravity offset is minus the container
half-dimensions rather than (0, 0, 0). -/
theorem statistics_empty_fields (container : Container) (rules : List LoadingRule) :
    (get_statistics ⟨container, [], rules, 0⟩).loaded_count = 0 ∧
    (get_statistics ⟨container, [], rules, 0⟩).total_volume = 0 ∧
    (get_statistics ⟨container, [], rules, 0⟩).volume_utilization = 0 ∧
    (get_statistics ⟨container, [], rules, 0⟩).total_weight = 0 ∧
    (get_statistics ⟨container, [], rules, 0⟩).weight_utilization = 0 ∧
    (get_statistics ⟨container, [], rules, 0⟩).center_of_gravity = (0, 0, 0) ∧
    (get_statistics ⟨container, [], rules, 0⟩).center_offset =
      (-(container.length / 2), -(container.width / 2), -(container.height / 2)) := by
  refine ⟨?_, ?_, ?_, ?_, ?_, ?_, ?_⟩ <;>
    simp [get_statistics, calculate_center_offset, calculate_center_of_gravity]

/-- Claim C5: the orientation preselector ignores the placed set, and for a
rotatable item designates the rotated orientation as optimal exactly when
its per-layer tiling count floor(W/l)·floor(L/w) strictly exceeds the
un-rotated count floor(W/w)·floor(L/l); on ties (equal counts) it
designates the un-rotated orientation. -/
theorem best_rotation_iff (alg : LoadingAlgorithm) (cargo : Cargo)
    (h : cargo.allow_rotate = true) :
    (∀ placed2, calculate_best_rotation_for_layer { alg with placed_cargos := placed2 } cargo =
      calculate_best_rotation_for_layer alg cargo) ∧
    (calculate_best_rotation_for_layer alg cargo = true ↔
      Rat.floor (alg.container.width / cargo.width) *
          Rat.floor (alg.container.length / cargo.length) <
        Rat.floor (alg.container.width / cargo.length) *
          Rat.floor (alg.container.length / cargo.width)) := by
  constructor
  · intro placed2
    rfl
  · simp [calculate_best_rotation_for_layer, h]

/-- Witness for C5: in an empty 100 × 60 × 50 container a rotatable
20 × 50 box tiles 6 per layer rotated and 5 un-rotated, so the preselector
returns true; a 50 × 50 box in a 50 × 50 × 50 container ties at one per
layer each way, so the preselector returns false. -/
theorem best_rotation_iff_witness :
    calculate_best_rotation_for_layer rotAlgEx cargoRot = true ∧
      calculate_best_rotation_for_layer tieAlgEx cargoTie ≠ true :=
  ⟨(best_rotation_iff rotAlgEx cargoRot (by decide)).2.mpr (by decide),
   fun hbt => absurd ((best_rotation_iff tieAlgEx cargoTie (by decide)).2.mp hbt) (by decide)⟩

/-- Counterexample to claim C3: at the origin of an empty 100 × 50 × 50
container with a 30 × 20 × 20 candidate, the score is -11 (the wall
bonuses computed from the candidate's own dimensions), while the bonuses
claimed from the container dimensions would sum to -87.5; the distance,
placement-contact and waste contributions are all zero here, so the claim
pins the score to -87.5 and fails. -/
theorem wall_bonus_cex :
    calculate_placement_score emptyAlgEx cargoScore 0 0 0 false = -11 ∧
    claim_wall_bonus emptyAlgEx 0 0 0 = -87.5 ∧
    calculate_placement_score emptyAlgEx cargoScore 0 0 0 false ≠
      claim_wall_bonus emptyAlgEx 0 0 0 :=
  ⟨by decide, by decide, by decide⟩

/-- Claim C3 (corrected): with no placements, the scorer is the distance
penalty plus wall-contact bonuses computed from the candidate's effective
width/length and the item height - namely -0.005·eff_w·h at x ≈ 0,
-0.005·eff_l·h at y ≈ 0 and -0.01·eff_l·eff_w at z ≈ 0 - plus the waste
penalty; the container dimensions never enter the wall bonuses. -/
theorem wall_bonus_formula (container : Container) (rules : List LoadingRule) (sc : Nat)
    (cargo : Cargo) (x y z : ℚ) (rotated : Bool) :
    calculate_placement_score ⟨container, [], rules, sc⟩ cargo x y z rotated =
      x * 1.0 + y * 1.5 + z * 2.0
      + ((if x < 0.1 then
            -((if rotated then cargo.length else cargo.width) * cargo.height * 0.005) else 0)
        + (if y < 0.1 then
            -((if rotated then cargo.width else cargo.length) * cargo.height * 0.005) else 0)
        + (if z < 0.1 then
            -((if rotated then cargo.width else cargo.length) *
              (if rotated then cargo.length else cargo.width) * 0.01) else 0))
      + ((if 0 < container.length - (x + (if rotated then cargo.width else cargo.length)) ∧
              container.length - (x + (if rotated then cargo.width else cargo.length)) < 30
          then (container.length - (x + (if rotated then cargo.width else cargo.length))) * 0.5
          else 0)
        + (if 0 < container.width - (y + (if rotated then cargo.length else cargo.width)) ∧
              container.width - (y + (if rotated then cargo.length else cargo.width)) < 30
          then (container.width - (y + (if rotated then cargo.length else cargo.width))) * 0.5
          else 0)) := by
  simp only [calculate_placement_score, List.foldl_nil]
  split_ifs <;> ring

end ConcreteEvaluation

/-- The lexicographic key comparison is total. -/
theorem keyLE_total : ∀ a b : List ℚ, (keyLE a b || keyLE b a) = true
  | [], b => by simp [keyLE]
  | a :: as, [] => by simp [keyLE]
  | a :: as, b :: bs => by
    by_cases h1 : a < b
    · simp [keyLE, h1, asymm h1]
    · by_cases h2 : b < a
      · simp [keyLE, h1, h2]
      · simpa [keyLE, h1, h2] using keyLE_total as bs

/-- The lexicographic key comparison is transitive. -/
theorem keyLE_trans : ∀ a b c : List ℚ,
    keyLE a b = true → keyLE b c = true → keyLE a c = true
  | [], _, _ => by simp [keyLE]
  | x :: xs, [], _ => by simp [keyLE]
  | x :: xs, y :: ys, [] => by intro _ h2; simp [keyLE] at h2
  | x :: xs, y :: ys, z :: zs => by
    intro h1 h2
    by_cases hxy : x < y
    · by_cases hyz : y < z
      · simp [keyLE, lt_trans hxy hyz]
      · by_cases hzy : z < y
        · simp [keyLE, hyz, hzy] at h2
        · have hy : y = z := le_antisymm (not_lt.mp hzy) (not_lt.mp hyz)
          simp [keyLE, hy ▸ hxy]
    · by_cases hyx : y < x
      · simp [keyLE, hxy, hyx] at h1
      · have hx : x = y := le_antisymm (not_lt.mp hyx) (not_lt.mp hxy)
        subst hx
        simp only [keyLE, lt_self_iff_false, if_false] at h1
        by_cases hxz : x < z
        · simp [keyLE, hxz]
        · by_cases hzx : z < x
          · simp [keyLE, hxz, hzx] at h2
          · have hx2 : x = z := le_antisymm (not_lt.mp hzx) (not_lt.mp hxz)
            subst hx2
            simp only [keyLE, lt_self_iff_false, if_false] at h2 ⊢
            exact keyLE_trans xs ys zs h1 h2

/-- Claim C6: the rule pipeline is idempotent - applying it to its own
output reproduces that output exactly, for every rule set and item list. -/
theorem apply_rules_idempotent (alg : LoadingAlgorithm) (cargos : List Cargo) :
    apply_rules alg (apply_rules alg cargos) = apply_rules alg cargos := by
  unfold apply_rules
  by_cases h : enabled_rules alg.rules = []
  · simp [h]
  · simp only [h, if_neg, if_false]
    apply List.mergeSort_of_sorted
    apply List.sorted_mergeSort
    · intro a b c hab hbc
      exact keyLE_trans _ _ _ hab hbc
    · intro a b
      exact keyLE_total _ _

/-- Setting the container index of the last element of an appended
singleton. -/
theorem setLastIndex_append (k : Nat) :
    ∀ (l : List PlacedCargo) (p : PlacedCargo),
      setLastIndex k (l ++ [p]) = l ++ [{ p with container_index := k }]
  | [], p => rfl
  | [q], p => rfl
  | q :: r :: rest, p => by
    have ih := setLastIndex_append k (r :: rest) p
    simpa [setLastIndex] using ih

/-- The one-container packing loop only appends placements: the placements
it adds form, via their cargos, an order-preserving subsequence of the
remainder it was given, and so does its unplaced list. -/
theorem pack_remaining_append (k : Nat) :
    ∀ (remaining : List Cargo) (alg : LoadingAlgorithm),
      ∃ extra : List PlacedCargo,
        (pack_remaining k alg remaining).1.placed_cargos = alg.placed_cargos ++ extra ∧
        (extra.map fun p => p.cargo).Sublist remaining ∧
        ((pack_remaining k alg remaining).2).Sublist remaining
  | [], alg => ⟨[], by simp [pack_remaining], by simp [pack_remaining], by simp [pack_remaining]⟩
  | c :: rest, alg => by
    rcases hfp : find_position alg c with _ | ⟨x, y, z, r⟩
    · obtain ⟨extra, h1, h2, h3⟩ := pack_remaining_append k rest alg
      refine ⟨extra, ?_, h2.cons c, ?_⟩
      · simpa [pack_remaining, place_cargo, hfp] using h1
      · simpa [pack_remaining, place_cargo, hfp] using h3.cons₂ c
    · obtain ⟨extra, h1, h2, h3⟩ := pack_remaining_append k rest
        { container := alg.container
          placed_cargos := alg.placed_cargos ++
            [{ cargo := c, x := x, y := y, z := z, rotated := r,
               step_number := alg.step_counter + 1, container_index := k }]
          rules := alg.rules
          step_counter := alg.step_counter + 1 }
      refine ⟨{ cargo := c, x := x, y := y, z := z, rotated := r,
                step_number := alg.step_counter + 1, container_index := k } :: extra, ?_, ?_, ?_⟩
      · rw [show (pack_remaining k alg (c :: rest)).1.placed_cargos =
            (alg.placed_cargos ++
              [{ cargo := c, x := x, y := y, z := z, rotated := r,
                 step_number := alg.step_counter + 1, container_index := k }]) ++ extra from ?_]
        · simp
        · simpa [pack_remaining, place_cargo, hfp, setLastIndex_append] using h1
      · exact h2.cons₂ c
      · simpa [pack_remaining, place_cargo, hfp, setLastIndex_append] using h3.cons c

/-- Claim C2 (corrected): the multi-container orchestrator never reorders
the remainder - the rule pipeline is not invoked on this path at all.  Each
container attempts the remaining items in their existing order, so both
the cargos it places (in placement order) and the unplaced remainder are
order-preserving subsequences of the incoming remainder. -/
theorem multi_container_no_reorder (container : Container) (rules : List LoadingRule) (k : Nat)
    (remaining : List Cargo) :
    ((pack_one_container container rules k remaining).1.map fun p => p.cargo).Sublist
        remaining ∧
    ((pack_one_container container rules k remaining).2).Sublist remaining := by
  obtain ⟨extra, h1, h2, h3⟩ :=
    pack_remaining_append k remaining ⟨container, [], rules, 0⟩
  constructor
  · unfold pack_one_container
    simp only []
    rw [show (pack_remaining k ⟨container, [], rules, 0⟩ remaining).1.placed_cargos =
        extra from by simpa using h1]
    exact h2
  · exact h3

/-- Claim C8 (corrected): the orchestrator emits at most one result per
requested container, and when it emits fewer than requested it is because
the remainder was exhausted - the trailing containers after exhaustion are
dropped, not retained.  (A container whose remainder is nonempty but
places nothing still gets a retained empty result: the loop in that case
recurses without shortening the result list.) -/
theorem multi_container_results_length (container : Container) (rules : List LoadingRule) :
    ∀ (n k : Nat) (remaining : List Cargo),
      (multi_loop container rules n k remaining).1.length ≤ n ∧
      ((multi_loop container rules n k remaining).1.length = n ∨
        (multi_loop container rules n k remaining).2 = [])
  | 0, k, remaining => ⟨Nat.le_refl 0, Or.inl rfl⟩
  | n + 1, k, remaining => by
    by_cases hr : remaining = []
    · simp [multi_loop, hr]
    · obtain ⟨hle, hor⟩ := multi_container_results_length container rules n (k + 1)
        (pack_one_container container rules k remaining).2
      simp only [multi_loop, if_neg hr]
      refine ⟨by simpa using Nat.succ_le_succ hle, ?_⟩
      rcases hor with h | h
      · exact Or.inl (by simp [h])
      · exact Or.inr (by simpa using h)

section ConcreteOrchestration

attribute [local semireducible] Rat.add Rat.mul Rat.sub Rat.inv Rat.ofScientific
  List.mergeSort List.merge

/-- Counterexample to claim C2: with the default rules and the items
[A (10 cm cube, priority 0), B (20 cm cube, priority 5)], the orchestrator
places A before B - the input expansion order - while the
reorder-per-container reading of the claim (the rule pipeline sorts B
first on priority) would place B before A.  The remainder is never
reordered by the rule pipeline. -/
theorem multi_container_no_reorder_cex :
    ((start_multi_container_loading exContainer DEFAULT_RULES 1 [cargoA, cargoB]).1.map
        fun res => res.placed_cargos.map fun p => p.cargo.name) = [["A", "B"]] ∧
    ((start_multi_container_loading_spec exContainer DEFAULT_RULES 1 [cargoA, cargoB]).1.map
        fun res => res.placed_cargos.map fun p => p.cargo.name) = [["B", "A"]] ∧
    ([["A", "B"]] : List (List String)) ≠ [["B", "A"]] :=
  ⟨by decide, by decide, by decide⟩

/-- Counterexample to claim C8: asked for two containers with a single
small item, the orchestrator returns one result - the loop breaks before
reaching container 2 once the cargo is exhausted, so no
ContainerLoadingResult exists for every index up to the target count. -/
theorem multi_container_results_length_cex :
    (start_multi_container_loading exContainer DEFAULT_RULES 2 [cargoA]).1.length = 1 ∧
      (1 : Nat) ≠ 2 :=
  ⟨by decide, by decide⟩

/-- Witness for C8 (corrected): on the concrete truncated run the theorem
yields that the final remainder is empty. -/
theorem multi_container_results_length_witness :
    (multi_loop exContainer DEFAULT_RULES 2 0 (expand_quantities [cargoA])).2 = [] :=
  ((multi_container_results_length exContainer DEFAULT_RULES 2 0
      (expand_quantities [cargoA])).2).resolve_left (by decide)

end ConcreteOrchestration

/-- Support sums split over list concatenation. -/
theorem supportSum_append (A B : List PlacedCargo) (x y z l w : ℚ) :
    supportSum (A ++ B) x y z l w = supportSum A x y z l w + supportSum B x y z l w := by
  simp [supportSum]

/-- Support sums are nonnegative: every contribution is a product of
clamped overlaps. -/
theorem supportSum_nonneg (A : List PlacedCargo) (x y z l w : ℚ) :
    0 ≤ supportSum A x y z l w := by
  unfold supportSum
  apply List.sum_nonneg
  intro q hq
  simp only [List.mem_map] at hq
  obtain ⟨p, hp, rfl⟩ := hq
  split_ifs
  · exact mul_nonneg (le_max_left 0 _) (le_max_left 0 _)
  · exact le_refl 0

/-- A passing `can_place` at a stacked height certifies the 70% support
bound against the current placements. -/
theorem can_place_support (alg : LoadingAlgorithm) (cargo : Cargo) (x y z : ℚ) (rotated : Bool)
    (h : can_place alg cargo x y z rotated = true) (hz : (0.01 : ℚ) < z) :
    (if rotated then cargo.width else cargo.length) *
        (if rotated then cargo.length else cargo.width) * 0.7 ≤
      supportSum alg.placed_cargos x y z (if rotated then cargo.width else cargo.length)
        (if rotated then cargo.length else cargo.width) := by
  cases rotated <;>
    · simp only [can_place] at h
      split_ifs at h
      all_goals
        first
        | exact absurd h (by decide)
        | exact (by assumption : False).elim
        | exact absurd hz (by assumption)
        | simpa using of_decide_eq_true h

/-- Claim C1 (corrected): committing any placement that the feasibility
oracle admits preserves the support invariant - the driver only commits
admitted placements, so the invariant holds after every driver call.  (The
manual-edit operations re-validate only bounds and pairwise collision, not
support; see the counterexample.) -/
theorem support_invariant_preserved (alg : LoadingAlgorithm) (cargo : Cargo) (x y z : ℚ)
    (rotated : Bool) (n k : Nat)
    (hinv : support_ok alg.placed_cargos)
    (hcp : can_place alg cargo x y z rotated = true) :
    support_ok (alg.placed_cargos ++
      [{ cargo := cargo, x := x, y := y, z := z, rotated := rotated,
         step_number := n, container_index := k }]) := by
  intro i hi hz2
  rcases Nat.lt_or_ge i alg.placed_cargos.length with hlt | hge
  · have hget : (alg.placed_cargos ++
        [({ cargo := cargo, x := x, y := y, z := z, rotated := rotated,
            step_number := n, container_index := k } : PlacedCargo)])[i] =
        alg.placed_cargos[i] := List.getElem_append_left hlt
    have he := List.eraseIdx_append_of_lt_length hlt
      [({ cargo := cargo, x := x, y := y, z := z, rotated := rotated,
          step_number := n, container_index := k } : PlacedCargo)]
    rw [hget] at hz2 ⊢
    rw [he, supportSum_append]
    have h1 := hinv i hlt hz2
    have h2 := supportSum_nonneg
      [({ cargo := cargo, x := x, y := y, z := z, rotated := rotated,
          step_number := n, container_index := k } : PlacedCargo)]
      alg.placed_cargos[i].x alg.placed_cargos[i].y alg.placed_cargos[i].z
      alg.placed_cargos[i].actual_length alg.placed_cargos[i].actual_width
    linarith
  · have hlen : i = alg.placed_cargos.length := by
      have h2 : i < alg.placed_cargos.length + 1 := by simpa using hi
      omega
    subst hlen
    have hget : (alg.placed_cargos ++
        [({ cargo := cargo, x := x, y := y, z := z, rotated := rotated,
            step_number := n, container_index := k } : PlacedCargo)])[alg.placed_cargos.length] =
        { cargo := cargo, x := x, y := y, z := z, rotated := rotated,
          step_number := n, container_index := k } :=
      List.getElem_concat_length _ _ _ rfl _
    have he := List.eraseIdx_append_of_length_le (Nat.le_refl alg.placed_cargos.length)
      [({ cargo := cargo, x := x, y := y, z := z, rotated := rotated,
          step_number := n, container_index := k } : PlacedCargo)]
    rw [hget] at hz2 ⊢
    rw [he]
    simpa [PlacedCargo.actual_length, PlacedCargo.actual_width] using
      can_place_support alg cargo x y z rotated hcp hz2

/-- Setting a list entry to the value it already holds is the identity. -/
theorem list_set_self {α : Type} : ∀ (l : List α) (i : Nat) (a : α),
    l[i]? = some a → l.set i a = l
  | [], i, a => by simp
  | b :: t, 0, a => by
    intro h
    simp only [List.getElem?_cons_zero, Option.some.injEq] at h
    simp [h]
  | b :: t, i + 1, a => by
    intro h
    simp only [List.getElem?_cons_succ] at h
    simp [list_set_self t i a h]

/-- Claim C7: whenever the rotate-in-place operation reports failure, the
state is fully reverted - the placement list (its rotated flag, x, y, z
and step number included) is exactly what it was before the call. -/
theorem rotate_failure_reverts (view : Container3DView)
    (h : (rotate_selected_cargo view).1 = false) :
    (rotate_selected_cargo view).2 = view := by
  unfold rotate_selected_cargo at h ⊢
  by_cases h1 : view.selected_cargo_index < 0 ∨
      (view.placed_cargos.length : Int) ≤ view.selected_cargo_index
  · simp [h1]
  · rcases hq : view.placed_cargos[view.selected_cargo_index.toNat]? with _ | placed
    · simp [h1, hq]
    · by_cases h2 : placed.cargo.allow_rotate
      · simp only [if_neg h1, hq, h2, Bool.not_true, Bool.false_eq_true, if_false] at h ⊢
        -- the failing branch of rotate_attempt restores the flag and the list
        simp only [rotate_attempt] at h ⊢
        split at h
        next hcol =>
          split at h
          next pr hfind => simp at h
          next hfind =>
            rw [if_pos hcol]
            simp only [List.set_set]
            show ({ view with placed_cargos :=
              view.placed_cargos.set view.selected_cargo_index.toNat placed } :
                Container3DView) = view
            rw [list_set_self _ _ _ hq]
        next hcol => simp at h
      · simp [h1, hq, h2]

section ConcreteManualEdits

attribute [local semireducible] Rat.add Rat.mul Rat.sub Rat.inv Rat.ofScientific

/-- Counterexample to claim C1: the state `moveViewEx` satisfies the
support invariant; the manual translate call succeeds (it re-validates
only bounds and collision), and afterwards the stack-top box hangs with
only 50 of the required 70 cm² of support - the support invariant is
violated after a manual-edit call. -/
theorem support_manual_edit_cex :
    support_ok moveViewEx.placed_cargos ∧
    (move_selected_cargo moveViewEx 15 0 0).1 = true ∧
    ¬ support_ok (move_selected_cargo moveViewEx 15 0 0).2.placed_cargos :=
  ⟨by decide, by decide, by decide⟩

/-- Witness for C1 (corrected): committing a 10 cm box on top of the
20 × 20 base through the oracle preserves the support invariant. -/
theorem support_invariant_preserved_witness :
    support_ok (supportAlgEx.placed_cargos ++
      [{ cargo := topBoxEx, x := 0, y := 0, z := 10, rotated := false,
         step_number := 2, container_index := 0 }]) :=
  support_invariant_preserved supportAlgEx topBoxEx 0 0 10 false 2 0 (by decide) (by decide)

/-- Witness for C7: on the fully tiled `rotViewEx` the rotation of the
plank collides everywhere the ±50 cm scan reaches, the call reports
failure, and the theorem yields that the state is exactly reverted. -/
theorem rotate_failure_reverts_witness :
    (rotate_selected_cargo rotViewEx).2 = rotViewEx :=
  rotate_failure_reverts rotViewEx (by decide)

end ConcreteManualEdits

/-- An admitted pallet orientation only returns positions the finder
produced, so its z is nonnegative for a nonnegative finder. -/
theorem pallet_try_orientation_z_nonneg (finder : PalletFinder) (hf : FinderNonneg finder)
    (items : List PalletPlacedItem) (pl pw hc mw w : ℚ) (cargo : Cargo) (r : Bool)
    (x y z : ℚ)
    (h : pallet_try_orientation finder items pl pw hc mw w cargo r = some (x, y, z)) :
    0 ≤ z := by
  simp only [pallet_try_orientation] at h
  split_ifs at h <;>
    first
    | exact absurd h (by simp)
    | exact hf _ _ _ _ _ _ _ _ _ _ h

/-- A committed pallet placement has nonnegative z for a nonnegative
finder. -/
theorem pallet_try_place_z_nonneg (finder : PalletFinder) (hf : FinderNonneg finder)
    (items : List PalletPlacedItem) (pl pw hc mw w : ℚ) (cargo : Cargo)
    (x y z : ℚ) (r : Bool)
    (h : pallet_try_place finder items pl pw hc mw w cargo = some (x, y, z, r)) :
    0 ≤ z := by
  unfold pallet_try_place at h
  rcases h1 : pallet_try_orientation finder items pl pw hc mw w cargo false with _ | p1
  · rw [h1] at h
    rcases h2 : pallet_try_orientation finder items pl pw hc mw w cargo true with _ | p2
    · rw [h2] at h
      simp at h
    · rw [h2] at h
      rcases p2 with ⟨a, b, c⟩
      simp only [Option.some.injEq, Prod.mk.injEq] at h
      obtain ⟨-, -, hz, -⟩ := h
      exact hz ▸ pallet_try_orientation_z_nonneg finder hf items pl pw hc mw w cargo true a b c h2
  · rw [h1] at h
    rcases p1 with ⟨a, b, c⟩
    simp only [Option.some.injEq, Prod.mk.injEq] at h
    obtain ⟨-, -, hz, -⟩ := h
    exact hz ▸ pallet_try_orientation_z_nonneg finder hf items pl pw hc mw w cargo false a b c h1

/-- Invariants of one scan pass of the palletization engine: the
accumulated weight is the sum of the contents weights, the geometry tuples
mirror the contents, contents sit on or above the deck with positive
heights, and the leftcargo keep positive heights. -/
theorem pallet_pass_invariant (finder : PalletFinder) (hf : FinderNonneg finder)
    (pl pw hc mw : ℚ) :
    ∀ (rem : List Cargo) (contents : List PalletContent) (w : ℚ)
      (items : List PalletPlacedItem),
      w = (contents.map fun c => c.cargo.weight).sum →
      items = contents.map PalletContent.toPlacedItem →
      (∀ c ∈ contents, 0 ≤ c.z ∧ 0 < c.cargo.height) →
      (∀ c ∈ rem, 0 < c.height) →
      (pallet_pass finder pl pw hc mw rem contents w items).weight =
          (((pallet_pass finder pl pw hc mw rem contents w items).contents).map
            fun c => c.cargo.weight).sum ∧
        (pallet_pass finder pl pw hc mw rem contents w items).items =
          ((pallet_pass finder pl pw hc mw rem contents w items).contents).map
            PalletContent.toPlacedItem ∧
        (∀ c ∈ (pallet_pass finder pl pw hc mw rem contents w items).contents,
          0 ≤ c.z ∧ 0 < c.cargo.height) ∧
        (∀ c ∈ (pallet_pass finder pl pw hc mw rem contents w items).still, 0 < c.height)
  | [], contents, w, items => by
    intro hw hit hcz hrem
    exact ⟨hw, hit, hcz, by simp [pallet_pass]⟩
  | c :: rest, contents, w, items => by
    intro hw hit hcz hrem
    rcases htp : pallet_try_place finder items pl pw hc mw w c with _ | ⟨x, y, z, r⟩
    · obtain ⟨ih1, ih2, ih3, ih4⟩ := pallet_pass_invariant finder hf pl pw hc mw rest
        contents w items hw hit hcz (fun d hd => hrem d (List.mem_cons_of_mem c hd))
      refine ⟨by simpa [pallet_pass, htp] using ih1,
        by simpa [pallet_pass, htp] using ih2,
        by simpa [pallet_pass, htp] using ih3, ?_⟩
      intro d hd
      simp only [pallet_pass, htp] at hd
      rcases List.mem_cons.mp hd with rfl | hd2
      · exact hrem d (List.mem_cons_self d rest)
      · exact ih4 d hd2
    · have hznn : 0 ≤ z := pallet_try_place_z_nonneg finder hf items pl pw hc mw w c x y z r htp
      obtain ⟨ih1, ih2, ih3, ih4⟩ := pallet_pass_invariant finder hf pl pw hc mw rest
        (contents ++ [⟨c, x, y, z, r, 1⟩]) (w + c.weight)
        (items ++ [PalletContent.toPlacedItem ⟨c, x, y, z, r, 1⟩])
        (by simp [hw])
        (by simp [hit])
        (by
          intro d hd
          rcases List.mem_append.mp hd with hd2 | hd2
          · exact hcz d hd2
          · have : d = (⟨c, x, y, z, r, 1⟩ : PalletContent) := by simpa using hd2
            subst this
            exact ⟨hznn, hrem c (List.mem_cons_self c rest)⟩)
        (fun d hd => hrem d (List.mem_cons_of_mem c hd))
      exact ⟨by simpa [pallet_pass, htp] using ih1,
        by simpa [pallet_pass, htp] using ih2,
        by simpa [pallet_pass, htp] using ih3,
        by simpa [pallet_pass, htp] using ih4⟩

/-- Invariants of the `while made_progress` loop of the palletization
engine, for any fuel. -/
theorem pallet_inner_invariant (finder : PalletFinder) (hf : FinderNonneg finder)
    (pl pw hc mw : ℚ) :
    ∀ (fuel : Nat) (contents : List PalletContent) (w : ℚ)
      (items : List PalletPlacedItem) (rem : List Cargo),
      w = (contents.map fun c => c.cargo.weight).sum →
      items = contents.map PalletContent.toPlacedItem →
      (∀ c ∈ contents, 0 ≤ c.z ∧ 0 < c.cargo.height) →
      (∀ c ∈ rem, 0 < c.height) →
      (pallet_inner finder pl pw hc mw fuel contents w items rem).2.1 =
          (((pallet_inner finder pl pw hc mw fuel contents w items rem).1).map
            fun c => c.cargo.weight).sum ∧
        (pallet_inner finder pl pw hc mw fuel contents w items rem).2.2.1 =
          ((pallet_inner finder pl pw hc mw fuel contents w items rem).1).map
            PalletContent.toPlacedItem ∧
        (∀ c ∈ (pallet_inner finder pl pw hc mw fuel contents w items rem).1,
          0 ≤ c.z ∧ 0 < c.cargo.height) ∧
        (∀ c ∈ (pallet_inner finder pl pw hc mw fuel contents w items rem).2.2.2,
          0 < c.height)
  | 0, contents, w, items, rem => by
    intro hw hit hcz hrem
    exact ⟨hw, hit, hcz, hrem⟩
  | fuel + 1, contents, w, items, rem => by
    intro hw hit hcz hrem
    obtain ⟨p1, p2, p3, p4⟩ :=
      pallet_pass_invariant finder hf pl pw hc mw rem contents w items hw hit hcz hrem
    by_cases hp : (pallet_pass finder pl pw hc mw rem contents w items).progress = true
    · have ih := pallet_inner_invariant finder hf pl pw hc mw fuel
        (pallet_pass finder pl pw hc mw rem contents w items).contents
        (pallet_pass finder pl pw hc mw rem contents w items).weight
        (pallet_pass finder pl pw hc mw rem contents w items).items
        (pallet_pass finder pl pw hc mw rem contents w items).still p1 p2 p3 p4
      simpa [pallet_inner, hp] using ih
    · refine ⟨?_, ?_, ?_, ?_⟩ <;> simp only [pallet_inner, if_neg hp] <;>
        first
        | exact p1
        | exact p2
        | exact p3
        | exact p4

/-- Folding `max` of shifted values over a shifted accumulator shifts the
plain fold. -/
theorem foldl_max_add (b : ℚ) : ∀ (l : List ℚ) (a : ℚ),
    l.foldl (fun acc t => max acc (b + t)) (b + a) = b + l.foldl max a
  | [], a => rfl
  | t :: ts, a => by
    rw [List.foldl_cons, List.foldl_cons, max_add_add_left, foldl_max_add b ts (max a t)]

/-- A `max`-fold either keeps its accumulator or lands in the list. -/
theorem foldl_max_mem : ∀ (l : List ℚ) (a : ℚ), l.foldl max a = a ∨ l.foldl max a ∈ l
  | [], a => Or.inl rfl
  | t :: ts, a => by
    rw [List.foldl_cons]
    rcases foldl_max_mem ts (max a t) with h | h
    · rw [h]
      rcases le_total a t with h2 | h2
      · exact Or.inr (by simp [max_eq_right h2])
      · exact Or.inl (max_eq_left h2)
    · exact Or.inr (List.mem_cons_of_mem t h)

/-- A `max`-fold bounds its accumulator and every list element. -/
theorem le_foldl_max : ∀ (l : List ℚ) (a : ℚ),
    a ≤ l.foldl max a ∧ ∀ t ∈ l, t ≤ l.foldl max a
  | [], a => ⟨le_refl a, by simp⟩
  | t :: ts, a => by
    obtain ⟨h1, h2⟩ := le_foldl_max ts (max a t)
    rw [List.foldl_cons]
    refine ⟨le_trans (le_max_left a t) h1, ?_⟩
    intro s hs
    rcases List.mem_cons.mp hs with rfl | hs2
    · exact le_trans (le_max_right a s) h1
    · exact h2 s hs2

/-- The pallet height fold is the deck height plus the `max`-fold of the
top heights of the placed geometry tuples. -/
theorem pallet_height_eq (base_h : ℚ) (items : List PalletPlacedItem) :
    pallet_height base_h items = base_h + ((items.map fun t => t.z + t.h).foldl max 0) := by
  unfold pallet_height
  have h := foldl_max_add base_h (items.map fun t => t.z + t.h) 0
  rw [List.foldl_map] at h
  simpa using h

/-- Every pallet the outer palletization loop emits carries the deck
height, the exact content mass sum, and a height that exceeds the deck by
exactly the largest content top. -/
theorem palletize_loop_spec (finder : PalletFinder) (hf : FinderNonneg finder)
    (pl pw bh hc mw : ℚ) :
    ∀ (fuel count : Nat) (remaining : List Cargo),
      (∀ c ∈ remaining, 0 < c.height) →
      ∀ p ∈ palletize_loop finder pl pw bh hc mw fuel count remaining,
        p.cargo.pallet_base_height = bh ∧
        p.cargo.weight = (p.pallet_contents.map fun c => c.cargo.weight).sum ∧
        IsGreatest {t : ℚ | ∃ c ∈ p.pallet_contents, PalletContent.top_z c = t}
          (p.cargo.height - bh)
  | 0, count, remaining => by
    intro hrem p hp
    simp [palletize_loop] at hp
  | fuel + 1, count, remaining => by
    intro hrem p hp
    by_cases hr0 : remaining = []
    · simp [palletize_loop, hr0] at hp
    · simp only [palletize_loop, if_neg hr0] at hp
      obtain ⟨q1, q2, q3, q4⟩ := pallet_inner_invariant finder hf pl pw hc mw
        (remaining.length + 1) [] 0 [] remaining rfl rfl (by simp) hrem
      by_cases hc0 :
        (pallet_inner finder pl pw hc mw (remaining.length + 1) [] 0 [] remaining).1 = []
      · rw [if_pos hc0] at hp
        simp at hp
      · rw [if_neg hc0] at hp
        rcases List.mem_cons.mp hp with rfl | hp2
        · have htops :
              (pallet_inner finder pl pw hc mw
                  (remaining.length + 1) [] 0 [] remaining).2.2.1.map
                  (fun t => t.z + t.h) =
                (pallet_inner finder pl pw hc mw
                  (remaining.length + 1) [] 0 [] remaining).1.map
                  PalletContent.top_z := by
            rw [q2, List.map_map]
            simp [Function.comp, PalletContent.toPlacedItem, PalletContent.top_z]
          refine ⟨rfl, by simpa [mk_pallet_cargo] using q1, ?_⟩
          have hht : (mk_pallet_cargo (count + 1) pl pw bh
                (pallet_inner finder pl pw hc mw
                  (remaining.length + 1) [] 0 [] remaining).2.1
                (pallet_inner finder pl pw hc mw
                  (remaining.length + 1) [] 0 [] remaining).1
                (pallet_inner finder pl pw hc mw
                  (remaining.length + 1) [] 0 [] remaining).2.2.1).cargo.height - bh =
              ((pallet_inner finder pl pw hc mw
                  (remaining.length + 1) [] 0 [] remaining).1.map
                  PalletContent.top_z).foldl max 0 := by
            simp only [mk_pallet_cargo]
            rw [pallet_height_eq, htops]
            ring
          rw [hht]
          obtain ⟨hub0, hub⟩ := le_foldl_max
            ((pallet_inner finder pl pw hc mw
                (remaining.length + 1) [] 0 [] remaining).1.map PalletContent.top_z) 0
          constructor
          · -- membership: the fold is one of the tops
            rcases foldl_max_mem
                ((pallet_inner finder pl pw hc mw
                  (remaining.length + 1) [] 0 [] remaining).1.map PalletContent.top_z) 0 with
              hmem | hmem
            · exfalso
              obtain ⟨c0, hc0mem⟩ := List.exists_mem_of_ne_nil _ hc0
              have hpos : 0 < PalletContent.top_z c0 := by
                obtain ⟨hz0, hh0⟩ := q3 c0 hc0mem
                unfold PalletContent.top_z
                linarith
              have hle := hub (PalletContent.top_z c0) (List.mem_map_of_mem _ hc0mem)
              rw [hmem] at hle
              linarith
            · obtain ⟨c0, hc0mem, hc0eq⟩ := List.mem_map.mp hmem
              exact ⟨c0, hc0mem, hc0eq⟩
          · intro t ht
            obtain ⟨c0, hc0mem, rfl⟩ := ht
            exact hub (PalletContent.top_z c0) (List.mem_map_of_mem _ hc0mem)
        · exact palletize_loop_spec finder hf pl pw bh hc mw fuel (count + 1)
            (pallet_inner finder pl pw hc mw
              (remaining.length + 1) [] 0 [] remaining).2.2.2 q4 p hp2

/-- Claim C4: every pallet item the palletization engine produces declares
as mass exactly the sum of its contents masses, and as height exactly its
deck thickness plus the greatest content top (content z plus content
height), for every position finder that keeps contents on or above the
deck and every selection of items with positive heights. -/
theorem palletize_mass_height (finder : PalletFinder) (hf : FinderNonneg finder)
    (cargos : List Cargo) (hh : ∀ c ∈ cargos, 0 < c.height)
    (pl pw bh hc mw : ℚ) :
    ∀ p ∈ palletize_with_3d_algorithm finder cargos pl pw bh hc mw,
      p.cargo.pallet_base_height = bh ∧
      p.cargo.weight = (p.pallet_contents.map fun c => c.cargo.weight).sum ∧
      IsGreatest {t : ℚ | ∃ c ∈ p.pallet_contents, PalletContent.top_z c = t}
        (p.cargo.height - bh) := by
  intro p hp
  unfold palletize_with_3d_algorithm at hp
  exact palletize_loop_spec finder hf pl pw bh hc mw _ 0 _
    (fun c hcmem => hh c (List.mem_mergeSort.mp hcmem)) p hp

section ConcretePalletization

attribute [local semireducible] Rat.add Rat.mul Rat.sub Rat.inv Rat.ofScientific
  List.mergeSort List.merge

/-- Witness for C4: palletizing the single 10 cm, 5 kg box with the
deck-origin finder produces exactly `palletizeExPallet`, whose mass is the
content sum 5 kg and whose height 25 exceeds the 15 cm deck by the
greatest content top 10. -/
theorem palletize_mass_height_witness :
    palletizeExPallet.cargo.pallet_base_height = 15 ∧
    palletizeExPallet.cargo.weight =
      (palletizeExPallet.pallet_contents.map fun c => c.cargo.weight).sum ∧
    IsGreatest {t : ℚ | ∃ c ∈ palletizeExPallet.pallet_contents, PalletContent.top_z c = t}
      (palletizeExPallet.cargo.height - 15) :=
  palletize_mass_height constFinder
    (fun items a b c d e f x y z h => by
      simp only [constFinder, Option.some.injEq, Prod.mk.injEq] at h
      exact le_of_eq h.2.2)
    [palletCargoEx] (by decide) 120 100 15 150 1000 palletizeExPallet (by decide)

end ConcretePalletization

end ContainerLoading
